import Mathlib

/-!
Shallow embedding of the spike-processing pipeline in
`src/ephys/extraCellularRoutines.py` (repository peltonen/dattacode):
threshold-based spike detection (`detectSpikes`), waveform extraction
(`extractSpikes`), binned spike-rate histograms (`makeSTH`) and
Gaussian-kernel density smoothing (`makeSpikeDensity`).

Modelling conventions:
* numeric trace samples, thresholds, sample rates and spike times are `ℚ`
  (the Python code uses IEEE doubles; every claim checked here is exact
  small-integer arithmetic where double and rational arithmetic agree);
* values produced through `scipy.stats.norm.pdf`, `scipy.ndimage.convolve1d`
  and the energy normalisation (square roots) are `ℝ`;
* the XSG recording container is a structure whose `Option` fields model
  presence or absence of the dictionary keys; `copy.deepcopy` followed by
  key insertion is modelled by a functional structure update (value
  semantics);
* Python exceptions are modelled by `Except PyErr`; note that
  `assert(cond, msg)` in Python asserts a two-element tuple, which is always
  truthy, so the two such asserts in the source (line 54 and line 194) are
  modelled as no-ops, faithful to CPython semantics;
* the container is modelled with the single channel that the claims access
  (the code's `channel` argument defaults to the same `chan0` key that
  `makeSTH` hardcodes; no claim involves a second channel).
-/

deriving instance DecidableEq for Except

namespace Dattacode

/-- Python exception classes that the embedded code can raise. -/
inductive PyErr where
  | nameError
  | indexError
  | typeError
  | valueError
  | assertionError
  | zeroDivisionError
  | keyError (key : String)
  deriving DecidableEq

/-- A numpy array that is 1-d for an unmerged XSG and 2-d for a merged one. -/
inductive Arr (α : Type) where
  | one (v : List α)
  | many (m : List (List α))
  deriving DecidableEq

/-- The raw `ephys` channel data together with `sampleRate`.  For a merged
XSG the 2-d `(samples, trials)` array is stored trial-major (the result of
`np.rollaxis(. , 1, 0)`), and `sampleRate` is the per-trial list. -/
inductive EphysData where
  | single (trace : List ℚ) (sampleRate : ℚ)
  | merged (trials : List (List ℚ)) (sampleRates : List ℚ)
  deriving DecidableEq

/-- The derived `spikeTimes` key: event times in milliseconds. -/
inductive SpikeTimes where
  | single (ts : List ℚ)
  | merged (tss : List (List ℚ))
  deriving DecidableEq

/-- One `np.zeros((width, nspikes))` array of extracted waveforms, stored as
the row count together with the list of columns. -/
structure Wave2 where
  rows : ℕ
  cols : List (List ℝ)

/-- The derived `extractedSpikes` key: one 2-d array, or one per trial. -/
inductive ExtractedArr where
  | one (a : Wave2)
  | many (l : List Wave2)

/-- The derived `spikeHist` sub-dictionary produced by `makeSTH`. -/
structure SpikeHist where
  binCenters : Arr ℚ
  binEdges : Arr ℚ
  counts : Arr ℕ
  rates : Arr ℚ
  binSize : ℚ
  deriving DecidableEq

/-- The derived `spikeDensity` sub-dictionary produced by `makeSpikeDensity`. -/
structure SpikeDensity where
  binCenters : Arr ℚ
  kernel : List ℝ
  sigma : ℚ
  rates : Arr ℝ

/-- The XSG recording container.  `none` in a derived field models the
absence of that dictionary key. -/
structure Xsg where
  ephys : EphysData
  spikeTimes : Option SpikeTimes
  extractedSpikes : Option ExtractedArr
  spikeHist : Option SpikeHist
  spikeDensity : Option SpikeDensity

/-- The polymorphic threshold for one trial: a scalar or an explicit wave. -/
inductive ThreshOne where
  | scalar (c : ℚ)
  | wave (w : List ℚ)
  deriving DecidableEq

/-- The `thresh` argument of `detectSpikes`: a single scalar/wave
(broadcast over trials via `itertools.repeat`) or a per-trial list. -/
inductive Thresh where
  | one (t : ThreshOne)
  | perTrial (l : List ThreshOne)
  deriving DecidableEq

/-- Error-propagating map over a list, first exception wins (Python's eager
`map` over a `zip`). -/
def mapME {α β : Type} (f : α → Except PyErr β) : List α → Except PyErr (List β)
  | [] => .ok []
  | a :: as => match f a with
    | .error e => .error e
    | .ok b => (mapME f as).map (fun bs => b :: bs)

/-- Failure-propagating map over a list in `Option`. -/
def mapMO {α β : Type} (f : α → Option β) : List α → Option (List β)
  | [] => some []
  | a :: as => match f a, mapMO f as with
    | some b, some bs => some (b :: bs)
    | _, _ => none

/-- `np.ones_like(trace) * c` when the threshold is not already an ndarray
(line 67-68 of the source); an explicit wave is used as is. -/
def threshWave (trace : List ℚ) : ThreshOne → List ℚ
  | .scalar c => trace.map (fun _ => c)
  | .wave w => w

/-- `np.where((trace[:-1] < thresh[:-1]) & (trace[1:] > thresh[1:]))`
(line 71): indices of rising threshold crossings, in ascending order. -/
def risingIdx (trace thr : List ℚ) : List ℕ :=
  (List.range (trace.length - 1)).filter (fun i =>
    decide (trace.getD i 0 < thr.getD i 0) && decide (thr.getD (i+1) 0 < trace.getD (i+1) 0))

/-- `np.where((trace[:-1] > thresh[:-1]) & (trace[1:] < thresh[1:]))`
(line 73): indices of falling threshold crossings, in ascending order. -/
def fallingIdx (trace thr : List ℚ) : List ℕ :=
  (List.range (trace.length - 1)).filter (fun i =>
    decide (thr.getD i 0 < trace.getD i 0) && decide (trace.getD (i+1) 0 < thr.getD (i+1) 0))

/-- The inner `detect` closure of `detectSpikes` (lines 58-74).  The
`filter_trace` flag is accepted and ignored (the filtering branch of the
source is `pass`).  For an edge string other than `"rising"` and
`"falling"` neither branch assigns the crossing-index variable `i`, so
`return i * 1000.0 / sample_rate` raises `NameError`.  A wave threshold
whose length differs from the trace raises a numpy broadcast `ValueError`. -/
def detect (trace : List ℚ) (thresh : ThreshOne) (edge : String) (sampleRate : ℚ) :
    Except PyErr (List ℚ) :=
  let thr := threshWave trace thresh
  if thr.length ≠ trace.length then .error .valueError
  else if edge = "rising" then
    .ok ((risingIdx trace thr).map (fun (i : ℕ) => (i : ℚ) * 1000 / sampleRate))
  else if edge = "falling" then
    .ok ((fallingIdx trace thr).map (fun (i : ℕ) => (i : ℚ) * 1000 / sampleRate))
  else .error .nameError

/-- `detectSpikes` (lines 24-87).  The guard
`assert(edge in ['falling', 'rising'], "...")` asserts a two-element tuple,
which is always truthy in Python, so it never fails and is a no-op here.
For a merged XSG a non-list threshold is broadcast to every trial
(`itertools.repeat`), a list threshold is zipped against the trials
(truncating), and `xsg['sampleRate'][0]` raises `IndexError` when the
per-trial rate list is empty. -/
def detectSpikes (xsg : Xsg) (thresh : Thresh) (edge : String) (filterTrace : Bool) :
    Except PyErr Xsg :=
  match xsg.ephys with
  | .merged trials rates =>
    match rates.head? with
    | none => .error .indexError
    | some r0 =>
      let pairs : List (List ℚ × ThreshOne) :=
        match thresh with
        | .one t => trials.map (fun tr => (tr, t))
        | .perTrial l => trials.zip l
      (mapME (fun p => detect p.1 p.2 edge r0) pairs).map
        (fun tss => { xsg with spikeTimes := some (.merged tss) })
  | .single trace rate =>
    match thresh with
    | .one t =>
      (detect trace t edge rate).map
        (fun ts => { xsg with spikeTimes := some (.single ts) })
    | .perTrial _ => .error .typeError

/-- `int(width / 2)` (line 112): half of the extraction window, in samples. -/
def halfWidth (width : ℕ) : ℕ := width / 2

/-- Python's `int()` applied to a float: truncation toward zero. -/
def pyInt (q : ℚ) : ℤ := if 0 ≤ q then ⌊q⌋ else ⌈q⌉

/-- Python/numpy basic slicing `l[a:b]`: negative indices count from the
end, then both bounds are clipped to `[0, len]`. -/
def pySlice {α : Type} (l : List α) (a b : ℤ) : List α :=
  let n : ℤ := l.length
  let a1 : ℤ := if a < 0 then max 0 (n + a) else min a n
  let b1 : ℤ := if b < 0 then max 0 (n + b) else min b n
  (l.drop a1.toNat).take (b1 - a1).toNat

/-- `seg / np.sqrt(np.sum(np.power(seg, 2)))` (line 121): L2-normalise one
extracted window. -/
noncomputable def energyNormalize (seg : List ℚ) : List ℝ :=
  seg.map (fun (x : ℚ) => (x : ℝ) / Real.sqrt ((seg.map (fun (y : ℚ) => (y : ℝ) ^ 2)).sum))

/-- The inner `extract` closure of `extractSpikes` (lines 115-124): for each
spike time the sample index is `int(spike*10)` (hardcoded 10 kHz), the
window is `data[sample-half_width : sample+half_width]`, and the numpy
column assignment raises `ValueError` when the slice length differs from
`width` (for instance near the trace boundary, or for any odd `width`). -/
noncomputable def extractCols (data : List ℚ) (width : ℕ) (energy : Bool)
    (times : List ℚ) : Option (List (List ℝ)) :=
  mapMO (fun t =>
    let s := pyInt (t * 10)
    let seg := pySlice data (s - (halfWidth width : ℤ)) (s + (halfWidth width : ℤ))
    if seg.length = width then
      some (if energy then energyNormalize seg else seg.map (fun (q : ℚ) => (q : ℝ)))
    else none) times

/-- `extractSpikes` (lines 89-131): adds `extractedSpikes`, a
`width × nspikes` array per trial, to a copy of the container.  A missing
`spikeTimes` key raises `KeyError`. -/
noncomputable def extractSpikes (xsg : Xsg) (width : ℕ) (energy : Bool) :
    Except PyErr Xsg :=
  match xsg.ephys with
  | .merged trials _ =>
    match xsg.spikeTimes with
    | none => .error (.keyError "spikeTimes")
    | some (.single _) => .error .typeError
    | some (.merged tss) =>
      match mapMO (fun p => extractCols p.1 width energy p.2) (trials.zip tss) with
      | none => .error .valueError
      | some colss => .ok { xsg with
          extractedSpikes := some (.many (colss.map (fun cs => ⟨width, cs⟩))) }
  | .single trace _ =>
    match xsg.spikeTimes with
    | none => .error (.keyError "spikeTimes")
    | some (.merged _) => .error .typeError
    | some (.single ts) =>
      match extractCols trace width energy ts with
      | none => .error .valueError
      | some cs => .ok { xsg with extractedSpikes := some (.one ⟨width, cs⟩) }

/-- `np.arange(start, stop, step)`: `max 0 ⌈(stop-start)/step⌉` points
starting at `start`, spaced by `step`, excluding `stop`. -/
def arange (start stop step : ℚ) : List ℚ :=
  (List.range (⌈(stop - start) / step⌉).toNat).map (fun (k : ℕ) => start + (k : ℚ) * step)

/-- `np.histogram(ts, edges)` counts: bin `k` is `[edges[k], edges[k+1])`,
except the last bin which is closed on the right; values outside the edge
range are ignored. -/
def histCounts (ts : List ℚ) (edges : List ℚ) : List ℕ :=
  (List.range (edges.length - 1)).map (fun k =>
    (ts.filter (fun t =>
      decide (edges.getD k 0 ≤ t) &&
      (decide (t < edges.getD (k+1) 0) ||
        (decide (k + 2 = edges.length) && decide (t ≤ edges.getD (k+1) 0))))).length)

/-- `np.histogram` with an empty edge array raises; otherwise the counts. -/
def histCountsE (ts : List ℚ) (edges : List ℚ) : Except PyErr (List ℕ) :=
  if edges.isEmpty then .error .valueError else .ok (histCounts ts edges)

/-- `0.5*(bin_edges[1:] + bin_edges[:-1])` (line 209): bin midpoints. -/
def binCentersOf (edges : List ℚ) : List ℚ :=
  (List.range (edges.length - 1)).map (fun k => (edges.getD (k+1) 0 + edges.getD k 0) / 2)

/-- `np.array(rows).T` for a rectangular list of rows whose common length is
`m`: column `j` of the input becomes row `j` of the output. -/
def transposeL {α : Type} [Inhabited α] (m : ℕ) (rows : List (List α)) : List (List α) :=
  (List.range m).map (fun j => rows.map (fun r => r.getD j default))

/-- `makeSTH` (lines 175-228).  The guard
`assert('spikeTimes' in orig_xsg.keys(), 'No spike times found!')` asserts a
two-element tuple, always truthy, hence a no-op; a container without the
`spikeTimes` key instead raises `KeyError` when the key is read (after the
bin edges have been computed, before any histogram result is stored).
Bin edges are `np.arange(0, nsamples/sampleRate*1000, bin_size)` from the
`chan0` trace (line 203): the Python float division
`shape[0] / sampleRate` raises `ZeroDivisionError` when the sample rate is
zero, and `np.arange` with step 0 likewise raises, both before the
`spikeTimes` key is ever read.  `rates = counts * (1000.0 / bin_size)`, and
for a merged XSG the per-trial 1-d results are stacked and transposed to
`(time, trial)`. -/
def makeSTH (xsg : Xsg) (binSize : ℚ) : Except PyErr Xsg :=
  match xsg.ephys with
  | .single trace sampleRate =>
    if sampleRate = 0 then .error .zeroDivisionError
    else if binSize = 0 then .error .zeroDivisionError
    else
      let edges := arange 0 ((trace.length : ℚ) / sampleRate * 1000) binSize
      match xsg.spikeTimes with
      | none => .error (.keyError "spikeTimes")
      | some (.merged _) => .error .typeError
      | some (.single ts) =>
        match histCountsE ts edges with
        | .error e => .error e
        | .ok counts => .ok { xsg with spikeHist := some {
            binCenters := .one (binCentersOf edges)
            binEdges := .one edges
            counts := .one counts
            rates := .one (counts.map (fun (c : ℕ) => (c : ℚ) * (1000 / binSize)))
            binSize := binSize } }
  | .merged trials sampleRates =>
    match sampleRates.head? with
    | none => .error .indexError
    | some r0 =>
      if r0 = 0 then .error .zeroDivisionError
      else if binSize = 0 then .error .zeroDivisionError
      else
        let n := (trials.head?.getD []).length
        let edges := arange 0 ((n : ℚ) / r0 * 1000) binSize
        match xsg.spikeTimes with
        | none => .error (.keyError "spikeTimes")
        | some (.single _) => .error .typeError
        | some (.merged tss) =>
          match mapME (fun ts => histCountsE ts edges) tss with
          | .error e => .error e
          | .ok countRows =>
            let nb := edges.length - 1
            .ok { xsg with spikeHist := some {
              binCenters := .many (transposeL nb (tss.map (fun _ => binCentersOf edges)))
              binEdges := .many (transposeL edges.length (tss.map (fun _ => edges)))
              counts := .many (transposeL nb countRows)
              rates := .many ((transposeL nb countRows).map
                (fun row => row.map (fun (c : ℕ) => (c : ℚ) * (1000 / binSize))))
              binSize := binSize } }

/-- The kernel support `np.arange(-3*sigma, 3*sigma, binSize)` (line 263). -/
def kernelSupport (sigma binSize : ℚ) : List ℚ :=
  arange (-3 * sigma) (3 * sigma) binSize

/-- `scipy.stats.norm.pdf(x, 0, sigma)`: the normal density with mean `0`
and standard deviation `sigma`. -/
noncomputable def gaussPdf (sigma x : ℚ) : ℝ :=
  Real.exp (-(((x : ℚ) : ℝ) ^ 2 / (2 * ((sigma : ℚ) : ℝ) ^ 2))) /
    (((sigma : ℚ) : ℝ) * Real.sqrt (2 * Real.pi))

/-- `kernel = norm.pdf(edges, 0, sigma); kernel *= binSize` (lines 264-265). -/
noncomputable def gaussKernel (sigma binSize : ℚ) : List ℝ :=
  (kernelSupport sigma binSize).map (fun x => gaussPdf sigma x * ((binSize : ℚ) : ℝ))

/-- The infinite `reflect` boundary extension used by
`scipy.ndimage.convolve1d` by default: `(d c b a | a b c d | d c b a)`,
periodic with period `2n`. -/
def reflectIdx (n : ℕ) (i : ℤ) : ℕ :=
  if n = 0 then 0
  else
    let m := i % (2 * (n : ℤ))
    if m < n then m.toNat else (2 * (n : ℤ) - 1 - m).toNat

/-- `scipy.ndimage.convolve1d(input, w)` in one dimension:
`out[i] = Σ_j w[j] * ext(i + len(w)/2 - j)` with the `reflect` extension;
the output has the same length as the input. -/
noncomputable def convolve1d (input : List ℝ) (w : List ℝ) : List ℝ :=
  (List.range input.length).map (fun (i : ℕ) =>
    ((List.range w.length).map (fun (j : ℕ) =>
      w.getD j 0 *
        input.getD (reflectIdx input.length ((i : ℤ) + ((w.length / 2 : ℕ) : ℤ) - (j : ℤ))) 0)).sum)

/-- `convolve1d(rates.astype(float), kernel, axis=0)` (line 273): smooth a
1-d rate series directly, or each trial column of a `(time, trial)` array. -/
noncomputable def smoothRates (r : Arr ℚ) (kernel : List ℝ) : Arr ℝ :=
  match r with
  | .one v => .one (convolve1d (v.map (fun (q : ℚ) => (q : ℝ))) kernel)
  | .many rows =>
    let c := (rows.head?.getD []).length
    let cols := transposeL c (rows.map (fun row => row.map (fun (q : ℚ) => (q : ℝ))))
    .many (transposeL rows.length (cols.map (fun col => convolve1d col kernel)))

/-- `makeSpikeDensity` (lines 230-275).  Reading
`orig_xsg['spikeHist']['binSize']` raises `KeyError` when the histogram has
not been computed; `assert(sigma >= binSize)` is a genuine single-argument
assert and raises `AssertionError` when `sigma < binSize`.  Otherwise the
Gaussian kernel is built on `np.arange(-3*sigma, 3*sigma, binSize)`, scaled
by `binSize`, and convolved along the time axis of `rates`; `binCenters` is
copied from the histogram. -/
noncomputable def makeSpikeDensity (xsg : Xsg) (sigma : ℚ) : Except PyErr Xsg :=
  match xsg.spikeHist with
  | none => .error (.keyError "spikeHist")
  | some h =>
    if sigma < h.binSize then .error .assertionError
    else
      let kernel := gaussKernel sigma h.binSize
      .ok { xsg with spikeDensity := some {
        binCenters := h.binCenters
        kernel := kernel
        sigma := sigma
        rates := smoothRates h.rates kernel } }

/-- The numpy `shape` of a 1-d or 2-d array value. -/
def arrShape {α : Type} : Arr α → List ℕ
  | .one v => [v.length]
  | .many m => [m.length, (m.head?.getD []).length]

/-!  Helper definitions used to state the claims. -/

/-- The number of spike times detected on a single-trial container, when the
call succeeded and produced a single-trial `spikeTimes` array. -/
def singleSpikeCount (r : Except PyErr Xsg) : Option ℕ :=
  match r with
  | .ok x =>
    match x.spikeTimes with
    | some (.single ts) => some ts.length
    | _ => none
  | .error _ => none

/-- The container's `sampleRate` entry is readable and nonzero: for a
merged XSG the per-trial rate list must be nonempty (otherwise
`xsg['sampleRate'][0]` raises `IndexError`), and the sample rate that is
used must not be zero (otherwise the float division on line 203 raises
`ZeroDivisionError` before `spikeTimes` is read). -/
def sampleRateOk (x : Xsg) : Prop :=
  match x.ephys with
  | .single _ r => r ≠ 0
  | .merged _ rs => rs ≠ [] ∧ rs.headD 0 ≠ 0

/-- The numpy shape of the smoothed `rates` array of a successful
`makeSpikeDensity` call (`none` when the call failed). -/
def densityRatesShape (r : Except PyErr Xsg) : Option (List ℕ) :=
  match r with
  | .ok x => x.spikeDensity.map (fun d => arrShape d.rates)
  | .error _ => none

/-- Unwrap a successful stage result, with a default container for the
error case. -/
def okD (r : Except PyErr Xsg) (d : Xsg) : Xsg :=
  match r with
  | .ok o => o
  | .error _ => d

/-- A small single-trial container (2 samples at 1 Hz, empty spike-time
list, a one-bin histogram) on which every stage succeeds. -/
def xsgSmall : Xsg :=
  ⟨.single [0, 0] 1, some (.single []), none,
    some ⟨.one [1/2], .one [0, 1000], .one [0], .one [0], 1000⟩, none⟩

/-- The histogram record stored in `xsgSmall`. -/
def histSmall : SpikeHist := ⟨.one [1/2], .one [0, 1000], .one [0], .one [0], 1000⟩

/-- The 9-sample, 1000 Hz single-trial container of the spec's `makeSTH`
example, with spike times `[1.0, 5.0]` ms already detected. -/
def xsgNine : Xsg :=
  ⟨.single (List.replicate 9 0) 1000, some (.single [1, 5]), none, none, none⟩

/-!  Helper lemmas. -/

lemma getD_map_zero (f : ℚ → ℚ) (h0 : f 0 = 0) (l : List ℚ) (i : ℕ) :
    (l.map f).getD i 0 = f (l.getD i 0) := by
  induction l generalizing i with
  | nil => simp [List.getD, h0]
  | cons a as ih =>
    cases i with
    | zero => simp
    | succ n => simpa using ih n

lemma getD_map_const (c : ℚ) (l : List ℚ) (i : ℕ) (h : i < l.length) :
    (l.map fun _ => c).getD i 0 = c := by
  induction l generalizing i with
  | nil => simp at h
  | cons a as ih =>
    cases i with
    | zero => simp
    | succ n =>
      simp only [List.length_cons, Nat.succ_lt_succ_iff] at h
      simpa using ih n h

lemma getD_map_cast (f : ℚ → ℝ) (l : List ℚ) (i : ℕ) (h : i < l.length) :
    (l.map f).getD i 0 = f (l.getD i 0) := by
  induction l generalizing i with
  | nil => simp at h
  | cons a as ih =>
    cases i with
    | zero => simp
    | succ n =>
      simp only [List.length_cons, Nat.succ_lt_succ_iff] at h
      simpa using ih n h

/-- The falling-edge predicate on a trace with a constant threshold is the
rising-edge predicate on the negated trace with the negated threshold. -/
lemma falling_eq_rising_neg (t : List ℚ) (c : ℚ) :
    fallingIdx t (t.map fun _ => c)
      = risingIdx (t.map fun x => -x) ((t.map fun x => -x).map fun _ => -c) := by
  unfold fallingIdx risingIdx
  simp only [List.length_map]
  apply List.filter_congr
  intro i hi
  simp only [List.mem_range] at hi
  have h1 : i < t.length := lt_of_lt_of_le hi (Nat.sub_le _ _)
  have h2 : i + 1 < t.length := by omega
  rw [getD_map_const c t i h1, getD_map_const c t (i+1) h2,
    getD_map_const (-c) (t.map fun x => -x) i (by simpa using h1),
    getD_map_const (-c) (t.map fun x => -x) (i+1) (by simpa using h2),
    getD_map_zero (fun x => -x) (by norm_num) t i,
    getD_map_zero (fun x => -x) (by norm_num) t (i+1)]
  simp [decide_eq_decide]

lemma convolve1d_length (input w : List ℝ) : (convolve1d input w).length = input.length := by
  simp only [convolve1d, List.length_map, List.length_range]

lemma transposeL_length {α : Type} [Inhabited α] (m : ℕ) (rows : List (List α)) :
    (transposeL m rows).length = m := by
  simp only [transposeL, List.length_map, List.length_range]

lemma transposeL_head_length {α : Type} [Inhabited α] (m : ℕ) (rows : List (List α))
    (hm : 0 < m) : ((transposeL m rows).head?.getD []).length = rows.length := by
  cases m with
  | zero => omega
  | succ k =>
    simp only [transposeL, List.range_succ_eq_map, List.map_cons, List.head?_cons,
      Option.getD_some, List.length_map]

/-- Smoothing with `convolve1d` along the time axis preserves the numpy
shape of the rate array, for both the 1-d and the 2-d case. -/
lemma arrShape_smoothRates (r : Arr ℚ) (kernel : List ℝ) :
    arrShape (smoothRates r kernel) = arrShape r := by
  cases r with
  | one v => simp only [smoothRates, arrShape, convolve1d_length, List.length_map]
  | many rows =>
    cases rows with
    | nil =>
      simp only [smoothRates, arrShape, transposeL, List.length_map, List.length_range,
        List.range_zero, List.map_nil, List.length_nil, List.head?_nil, Option.getD_none]
    | cons r rs =>
      simp only [smoothRates, arrShape]
      rw [transposeL_length, transposeL_head_length _ _ (by simp)]
      simp only [List.length_map, transposeL_length, List.length_cons,
        List.head?_cons, Option.getD_some]

lemma arange_length (start stop step : ℚ) :
    (arange start stop step).length = (⌈(stop - start) / step⌉).toNat := by
  simp only [arange, List.length_map, List.length_range]

lemma histCounts_length (ts edges : List ℚ) :
    (histCounts ts edges).length = edges.length - 1 := by
  simp only [histCounts, List.length_map, List.length_range]

lemma mapMO_eq_map {α β : Type} (f : α → Option β) (g : α → β) (l : List α)
    (h : ∀ a ∈ l, f a = some (g a)) : mapMO f l = some (l.map g) := by
  induction l with
  | nil => rfl
  | cons a as ih =>
    have ha : f a = some (g a) := h a (by simp)
    have has : mapMO f as = some (as.map g) := ih (fun x hx => h x (by simp [hx]))
    simp [mapMO, ha, has]

/-- Python slicing with both bounds already inside `[0, len]` is plain
`drop`-then-`take`. -/
lemma pySlice_of_bounds {α : Type} (l : List α) (a b : ℤ)
    (ha : 0 ≤ a) (hab : a ≤ b) (hb : b ≤ (l.length : ℤ)) :
    pySlice l a b = (l.drop a.toNat).take (b - a).toNat := by
  have h1 : ¬ a < 0 := by omega
  have h2 : ¬ b < 0 := by omega
  simp only [pySlice, h1, h2, if_false,
    min_eq_left (le_trans hab hb), min_eq_left hb]

/-!  Claim theorems. -/

/-- C1: the claim says that for an edge argument that is neither `rising`
nor `falling`, `detectSpikes` fails with an invalid-argument condition
(`AssertionError` from the `assert(edge in [...], msg)` guard).  In fact the
guard asserts a parenthesized tuple, which is always truthy, so it never
fires; on a single-trial container the call instead raises `NameError`
(the crossing-index variable is never assigned), which is not the
invalid-argument condition: the code contradicts its own assert message. -/
theorem detectSpikes_invalid_edge_raises_name_error :
    detectSpikes ⟨.single [0] 1000, none, none, none, none⟩ (.one (.scalar 0)) "peak" false
      = .error .nameError ∧ PyErr.nameError ≠ PyErr.assertionError := by
  exact ⟨by rfl, by decide⟩

/-- C8: on the single trial `[0,0,2,2,0,0,2,2,0]` with scalar threshold `1`,
edge `rising` and `sampleRate` 1000, the detected crossings are at sample
indices `[1, 5]` and the resulting spike times are `[1.0, 5.0]` ms. -/
theorem detectSpikes_rising_example :
    risingIdx [0,0,2,2,0,0,2,2,0] (threshWave [0,0,2,2,0,0,2,2,0] (.scalar 1)) = [1, 5] ∧
    (detectSpikes ⟨.single [0,0,2,2,0,0,2,2,0] 1000, none, none, none, none⟩
      (.one (.scalar 1)) "rising" false).map (fun out => out.spikeTimes)
      = .ok (some (.single [1, 5])) := by
  constructor
  · decide
  · simp [detectSpikes, detect, threshWave, risingIdx]
    decide

/-- C9: for every single-trial trace and every scalar threshold, the number
of falling-edge crossings detected by `detectSpikes` equals the number of
rising-edge crossings detected on the elementwise-negated trace with the
negated threshold. -/
theorem falling_rising_symmetry (trace : List ℚ) (rate c : ℚ) :
    singleSpikeCount (detectSpikes ⟨.single trace rate, none, none, none, none⟩
        (.one (.scalar c)) "falling" false)
      = singleSpikeCount (detectSpikes ⟨.single (trace.map fun x => -x) rate, none, none, none, none⟩
        (.one (.scalar (-c))) "rising" false) := by
  simp only [detectSpikes, detect, threshWave]
  repeat' split
  any_goals (exfalso; simp_all; done)
  simp only [Except.map, singleSpikeCount, List.length_map]
  rw [falling_eq_rising_neg]

/-- C10: for a trial whose spike-time list is empty, `extractSpikes`
succeeds with a `width × 0` array: the loop body never runs, so the raw
trace is never indexed and the unguarded slicing cannot fail, regardless of
the `energy` flag (first conjunct: the per-trial `extract` closure; second
conjunct: the container-level call). -/
theorem extractSpikes_empty_times_succeeds (data : List ℚ) (rate : ℚ) (w : ℕ) (en : Bool) :
    extractCols data w en [] = some [] ∧
    extractSpikes ⟨.single data rate, some (.single []), none, none, none⟩ w en
      = .ok ⟨.single data rate, some (.single []), some (.one ⟨w, []⟩), none, none⟩ := by
  constructor <;> rfl

/-- C5: no stage mutates its input: each of `detectSpikes`,
`extractSpikes`, `makeSTH` and `makeSpikeDensity`, when it succeeds,
returns a container that agrees with the input on every other field and
carries the one (new) derived field; `copy.deepcopy` in the source makes
the output independent of the input, which the value semantics of this
embedding models exactly. -/
theorem stages_return_augmented_copy :
    (∀ xsg th e f out, detectSpikes xsg th e f = .ok out →
      out.ephys = xsg.ephys ∧ out.extractedSpikes = xsg.extractedSpikes ∧
      out.spikeHist = xsg.spikeHist ∧ out.spikeDensity = xsg.spikeDensity ∧
      out.spikeTimes.isSome = true) ∧
    (∀ xsg w en out, extractSpikes xsg w en = .ok out →
      out.ephys = xsg.ephys ∧ out.spikeTimes = xsg.spikeTimes ∧
      out.spikeHist = xsg.spikeHist ∧ out.spikeDensity = xsg.spikeDensity ∧
      out.extractedSpikes.isSome = true) ∧
    (∀ xsg b out, makeSTH xsg b = .ok out →
      out.ephys = xsg.ephys ∧ out.spikeTimes = xsg.spikeTimes ∧
      out.extractedSpikes = xsg.extractedSpikes ∧ out.spikeDensity = xsg.spikeDensity ∧
      out.spikeHist.isSome = true) ∧
    (∀ xsg s out, makeSpikeDensity xsg s = .ok out →
      out.ephys = xsg.ephys ∧ out.spikeTimes = xsg.spikeTimes ∧
      out.extractedSpikes = xsg.extractedSpikes ∧ out.spikeHist = xsg.spikeHist ∧
      out.spikeDensity.isSome = true) := by
  refine ⟨?_, ?_, ?_, ?_⟩
  · intro xsg th e f out hok
    simp only [detectSpikes, Except.map] at hok
    repeat' split at hok
    all_goals try (exfalso; simp_all; done)
    all_goals (injection hok with h; subst h; simp)
  · intro xsg w en out hok
    simp only [extractSpikes, Except.map] at hok
    repeat' split at hok
    all_goals try (exfalso; simp_all; done)
    all_goals (injection hok with h; subst h; simp)
  · intro xsg b out hok
    simp only [makeSTH, Except.map] at hok
    repeat' split at hok
    all_goals try (exfalso; simp_all; done)
    all_goals (injection hok with h; subst h; simp)
  · intro xsg s out hok
    simp only [makeSpikeDensity, Except.map] at hok
    repeat' split at hok
    all_goals try (exfalso; simp_all; done)
    all_goals (injection hok with h; subst h; simp)

/-- C5 witness: the four conjuncts of `stages_return_augmented_copy`
instantiated on the concrete container `xsgSmall`, on which every stage
succeeds. -/
theorem stages_return_augmented_copy_witness :
    ((okD (detectSpikes xsgSmall (.one (.scalar 0)) "rising" false) xsgSmall).ephys
        = xsgSmall.ephys ∧
      (okD (detectSpikes xsgSmall (.one (.scalar 0)) "rising" false) xsgSmall).extractedSpikes
        = xsgSmall.extractedSpikes ∧
      (okD (detectSpikes xsgSmall (.one (.scalar 0)) "rising" false) xsgSmall).spikeHist
        = xsgSmall.spikeHist ∧
      (okD (detectSpikes xsgSmall (.one (.scalar 0)) "rising" false) xsgSmall).spikeDensity
        = xsgSmall.spikeDensity ∧
      (okD (detectSpikes xsgSmall (.one (.scalar 0)) "rising" false) xsgSmall).spikeTimes.isSome
        = true) ∧
    ((okD (extractSpikes xsgSmall 2 false) xsgSmall).ephys = xsgSmall.ephys ∧
      (okD (extractSpikes xsgSmall 2 false) xsgSmall).spikeTimes = xsgSmall.spikeTimes ∧
      (okD (extractSpikes xsgSmall 2 false) xsgSmall).spikeHist = xsgSmall.spikeHist ∧
      (okD (extractSpikes xsgSmall 2 false) xsgSmall).spikeDensity = xsgSmall.spikeDensity ∧
      (okD (extractSpikes xsgSmall 2 false) xsgSmall).extractedSpikes.isSome = true) ∧
    ((okD (makeSTH xsgSmall 1000) xsgSmall).ephys = xsgSmall.ephys ∧
      (okD (makeSTH xsgSmall 1000) xsgSmall).spikeTimes = xsgSmall.spikeTimes ∧
      (okD (makeSTH xsgSmall 1000) xsgSmall).extractedSpikes = xsgSmall.extractedSpikes ∧
      (okD (makeSTH xsgSmall 1000) xsgSmall).spikeDensity = xsgSmall.spikeDensity ∧
      (okD (makeSTH xsgSmall 1000) xsgSmall).spikeHist.isSome = true) ∧
    ((okD (makeSpikeDensity xsgSmall 1000) xsgSmall).ephys = xsgSmall.ephys ∧
      (okD (makeSpikeDensity xsgSmall 1000) xsgSmall).spikeTimes = xsgSmall.spikeTimes ∧
      (okD (makeSpikeDensity xsgSmall 1000) xsgSmall).extractedSpikes
        = xsgSmall.extractedSpikes ∧
      (okD (makeSpikeDensity xsgSmall 1000) xsgSmall).spikeHist = xsgSmall.spikeHist ∧
      (okD (makeSpikeDensity xsgSmall 1000) xsgSmall).spikeDensity.isSome = true) := by
  have hsth : makeSTH xsgSmall 1000
      = .ok { xsgSmall with
          spikeHist := some ⟨.one [500], .one [0, 1000], .one [0], .one [0], 1000⟩ } := by
    norm_num [makeSTH, xsgSmall, arange, histCountsE, histCounts, binCentersOf,
      List.range_succ, Int.toNat, List.filter]
  refine ⟨stages_return_augmented_copy.1 xsgSmall (.one (.scalar 0)) "rising" false
      (okD (detectSpikes xsgSmall (.one (.scalar 0)) "rising" false) xsgSmall) rfl,
    stages_return_augmented_copy.2.1 xsgSmall 2 false
      (okD (extractSpikes xsgSmall 2 false) xsgSmall) rfl,
    stages_return_augmented_copy.2.2.1 xsgSmall 1000
      (okD (makeSTH xsgSmall 1000) xsgSmall) ?_,
    stages_return_augmented_copy.2.2.2 xsgSmall 1000
      (okD (makeSpikeDensity xsgSmall 1000) xsgSmall) rfl⟩
  rw [hsth]
  simp [okD]

/-- C6 counterexample: the claim quantifies over every container lacking
`spikeTimes` and asserts a missing-data failure.  For a container whose
`sampleRate` is zero, line 203's float division `shape[0] / sampleRate`
raises `ZeroDivisionError` before `xsg['spikeTimes']` is ever read, so the
failure is not a missing-data condition. -/
theorem makeSTH_zero_rate_not_missing_data :
    makeSTH ⟨.single [0] 0, none, none, none, none⟩ 1 = .error .zeroDivisionError ∧
    PyErr.zeroDivisionError ≠ PyErr.keyError "spikeTimes" := by
  exact ⟨by norm_num [makeSTH], by decide⟩

/-- C6 amended: a container without the `spikeTimes` key makes `makeSTH`
fail synchronously, and when the container's `sampleRate` entry is readable
and nonzero and `bin_size` is nonzero the failure is the missing-data
condition itself: the `KeyError` raised when the key is read (the
tuple-shaped assert on line 194 never fires, but the observable outcome the
claim describes still holds).  Unconditionally - degenerate sample rates
and bin sizes included - no container is ever returned, so no container
with a half-filled `spikeHist` escapes: the `xsg['spikeHist'] = {}`
insertion happens on the local deep copy, which is discarded when the
exception propagates. -/
theorem makeSTH_missing_spike_times_fails :
    (∀ (xsg : Xsg) (b : ℚ), sampleRateOk xsg → b ≠ 0 → xsg.spikeTimes = none →
      makeSTH xsg b = .error (.keyError "spikeTimes")) ∧
    (∀ (xsg : Xsg) (b : ℚ) (out : Xsg), xsg.spikeTimes = none →
      makeSTH xsg b ≠ .ok out) := by
  constructor
  · intro xsg b hsr hbz hst
    cases hE : xsg.ephys with
    | single trace rate =>
      have hr : rate ≠ 0 := by simpa [sampleRateOk, hE] using hsr
      simp [makeSTH, hE, hr, hbz, hst]
    | merged trials rates =>
      have hr : rates ≠ [] ∧ rates.headD 0 ≠ 0 := by simpa [sampleRateOk, hE] using hsr
      obtain ⟨hne, hr0⟩ := hr
      cases rates with
      | nil => exact absurd rfl hne
      | cons r rs =>
        have hrz : r ≠ 0 := by simpa using hr0
        simp [makeSTH, hE, hst, hrz, hbz]
  · intro xsg b out hst hok
    simp only [makeSTH] at hok
    repeat' split at hok
    all_goals simp_all

/-- C6 witness: the `KeyError` conjunct on a concrete well-formed container
without `spikeTimes`, and the no-result conjunct on the degenerate
zero-sample-rate container. -/
theorem makeSTH_missing_spike_times_fails_witness :
    makeSTH ⟨.single [0, 0] 1, none, none, none, none⟩ 1
      = .error (.keyError "spikeTimes") ∧
    makeSTH ⟨.single [0] 0, none, none, none, none⟩ 1
      ≠ .ok ⟨.single [0] 0, none, none, none, none⟩ :=
  ⟨makeSTH_missing_spike_times_fails.1 ⟨.single [0, 0] 1, none, none, none, none⟩ 1
      (by norm_num [sampleRateOk]) one_ne_zero rfl,
    makeSTH_missing_spike_times_fails.2 ⟨.single [0] 0, none, none, none, none⟩ 1
      ⟨.single [0] 0, none, none, none, none⟩ rfl⟩

/-- C7: on a container with a computed histogram, `makeSpikeDensity` raises
the invalid-configuration condition (`AssertionError`) when
`sigma < binSize`, and otherwise succeeds with a smoothed `rates` array of
exactly the same numpy shape as the histogram's `rates` (1-d length, or
2-d row and column counts). -/
theorem makeSpikeDensity_guard_and_shape (xsg : Xsg) (h : SpikeHist) (sigma : ℚ)
    (hh : xsg.spikeHist = some h) :
    (sigma < h.binSize → makeSpikeDensity xsg sigma = .error .assertionError) ∧
    (h.binSize ≤ sigma →
      densityRatesShape (makeSpikeDensity xsg sigma) = some (arrShape h.rates)) := by
  constructor
  · intro hlt
    simp [makeSpikeDensity, hh, hlt]
  · intro hle
    have hnlt : ¬ sigma < h.binSize := not_lt.mpr hle
    simp only [makeSpikeDensity, hh, hnlt, if_false, densityRatesShape]
    simp [arrShape_smoothRates]

/-- C7 witness: both conjuncts of `makeSpikeDensity_guard_and_shape` on the
concrete container `xsgSmall` (histogram bin size 1000 ms), with `sigma` 0
and 1000 respectively. -/
theorem makeSpikeDensity_guard_and_shape_witness :
    makeSpikeDensity xsgSmall 0 = .error .assertionError ∧
    densityRatesShape (makeSpikeDensity xsgSmall 1000) = some (arrShape histSmall.rates) :=
  ⟨(makeSpikeDensity_guard_and_shape xsgSmall histSmall 0 rfl).1 (by norm_num [histSmall]),
    (makeSpikeDensity_guard_and_shape xsgSmall histSmall 1000 rfl).2 (by norm_num [histSmall])⟩

/-- C2 counterexample: the claim predicts `floor(duration_ms / bin_size)`
bins, i.e. 9 bins for the 9 ms, `bin_size = 1` example.  The code's
`np.arange(0, 9, 1)` produces the 9 edges `0..8`, hence only 8 bins: on
the example container the histogram counts have length 8, not 9 (the counts
themselves are 1 in the bins containing 1.0 and 5.0 and zero elsewhere). -/
theorem makeSTH_nine_ms_example_has_eight_bins :
    (makeSTH xsgNine 1).map (fun out => out.spikeHist.map (fun h => h.counts))
      = .ok (some (.one [0, 1, 0, 0, 0, 1, 0, 0]))
    ∧ ([0, 1, 0, 0, 0, 1, 0, 0] : List ℕ).length ≠ 9 := by
  constructor
  · norm_num [makeSTH, xsgNine, arange, histCountsE, histCounts,
      List.range_succ, Int.toNat, List.filter, Except.map]
  · decide

/-- C2 amended: for a single-trial container with spike times computed,
positive sample rate, positive bin size and a nonempty trace, the histogram
has exactly `ceil(duration_ms / bin_size) - 1` bins, one fewer than the
claimed `floor` whenever `bin_size` divides `duration_ms` (the general
conjunct); on the 9 ms example with `bin_size = 1` this gives 8 bins, with
counts of 1 in the bins containing spike times 1.0 and 5.0 and zero
elsewhere, and `rates = counts * 1000` (the second conjunct). -/
theorem makeSTH_bin_count_ceil_minus_one :
    (∀ (xsg : Xsg) (trace ts : List ℚ) (rate b : ℚ),
      xsg.ephys = .single trace rate → xsg.spikeTimes = some (.single ts) →
      0 < rate → 0 < b → trace ≠ [] →
      (makeSTH xsg b).map (fun out => out.spikeHist.map (fun h => arrShape h.counts))
        = .ok (some [(⌈((trace.length : ℚ) / rate * 1000) / b⌉).toNat - 1])) ∧
    (makeSTH xsgNine 1).map (fun out => out.spikeHist.map (fun h => (h.counts, h.rates)))
      = .ok (some (.one [0, 1, 0, 0, 0, 1, 0, 0], .one [0, 1000, 0, 0, 0, 1000, 0, 0])) := by
  constructor
  · intro xsg trace ts rate b heph hst hrate hb htr
    have hlen : 0 < trace.length := List.length_pos.mpr htr
    have h1 : (0:ℚ) < (trace.length : ℚ) := by exact_mod_cast hlen
    have hD : 0 < (trace.length : ℚ) / rate * 1000 :=
      mul_pos (div_pos h1 hrate) (by norm_num)
    have hceil : 0 < ⌈((trace.length : ℚ) / rate * 1000 - 0) / b⌉ :=
      Int.ceil_pos.mpr (by rw [sub_zero]; exact div_pos hD hb)
    have hne : (arange 0 ((trace.length : ℚ) / rate * 1000) b).isEmpty = false := by
      rw [List.isEmpty_eq_false]
      intro hn
      have hl := congrArg List.length hn
      rw [arange_length] at hl
      simp only [List.length_nil] at hl
      omega
    have hr0 : rate ≠ 0 := ne_of_gt hrate
    have hb0 : b ≠ 0 := ne_of_gt hb
    simp only [makeSTH, heph, hst, histCountsE, hne, hr0, hb0, Bool.false_eq_true,
      if_false, Except.map]
    simp [arrShape, histCounts_length, arange_length]
  · norm_num [makeSTH, xsgNine, arange, histCountsE, histCounts, binCentersOf,
      List.range_succ, Int.toNat, List.filter, Except.map]

/-- C2 witness: the general conjunct of `makeSTH_bin_count_ceil_minus_one`
applied to the 9-sample 1000 Hz container with `bin_size = 1`. -/
theorem makeSTH_bin_count_ceil_minus_one_witness :
    (makeSTH xsgNine 1).map (fun out => out.spikeHist.map (fun h => arrShape h.counts))
      = .ok (some [(⌈(((List.replicate 9 (0:ℚ)).length : ℚ) / 1000 * 1000) / 1⌉).toNat - 1]) :=
  makeSTH_bin_count_ceil_minus_one.1 xsgNine (List.replicate 9 0) [1, 5] 1000 1 rfl rfl
    (by norm_num) (by norm_num) (by decide)

/-- C3 counterexample: the claim computes the center sample as
`round(spike_time_ms * 10)`; the code uses `int(spike*10)`, which truncates.
For spike time 0.75 ms the product is 7.5: the claim's window (width 2)
around `round(7.5) = 8` holds samples `[7, 8]` of the ramp trace
`[0,1,...,11]`, but `extractSpikes` returns the window around
`int(7.5) = 7`, namely samples `[6, 7]`. -/
theorem extractSpikes_truncates_not_rounds :
    (extractSpikes ⟨.single [0,1,2,3,4,5,6,7,8,9,10,11] 1000, some (.single [3/4]),
        none, none, none⟩ 2 false).map
      (fun out => out.extractedSpikes.map (fun e => match e with
        | .one a => some a.cols
        | .many _ => none))
      = .ok (some (some [[((6:ℚ):ℝ), ((7:ℚ):ℝ)]]))
    ∧ ([[((6:ℚ):ℝ), ((7:ℚ):ℝ)]] : List (List ℝ)) ≠ [[((7:ℚ):ℝ), ((8:ℚ):ℝ)]] := by
  constructor
  · norm_num [extractSpikes, extractCols, mapMO, pyInt, pySlice, halfWidth, Int.toNat,
      Except.map]
  · simp only [ne_eq, List.cons.injEq, and_true]
    norm_num

/-- C3 amended: for every even `width` and every single-trial container
whose spike times all give in-range windows, `extractSpikes` succeeds and
returns a `width`-row array with one column per spike time, where column
`j` holds the `width` trace samples starting at `s - width/2` with
`s = int(spike_time_ms * 10)` (truncation, not rounding; the 10 kHz factor
is independent of the container's `sampleRate`, which the conclusion never
mentions).  Odd widths are excluded: the slice has length `width - 1` and
the numpy column assignment fails. -/
theorem extractSpikes_even_width_windows (xsg : Xsg) (trace ts : List ℚ) (rate : ℚ) (w : ℕ)
    (heph : xsg.ephys = .single trace rate) (hst : xsg.spikeTimes = some (.single ts))
    (hw : w % 2 = 0)
    (hb : ∀ t ∈ ts, 0 ≤ pyInt (t*10) - (halfWidth w : ℤ) ∧
      pyInt (t*10) + (halfWidth w : ℤ) ≤ (trace.length : ℤ)) :
    (extractSpikes xsg w false).map (fun out => out.extractedSpikes)
      = .ok (some (.one ⟨w, ts.map (fun t =>
          ((trace.drop (pyInt (t*10) - (halfWidth w : ℤ)).toNat).take w).map
            (fun (q : ℚ) => (q : ℝ)))⟩)) := by
  have hcols : extractCols trace w false ts
      = some (ts.map (fun t =>
          ((trace.drop (pyInt (t*10) - (halfWidth w : ℤ)).toNat).take w).map
            (fun (q : ℚ) => (q : ℝ)))) := by
    apply mapMO_eq_map
    intro t ht
    obtain ⟨h1, h2⟩ := hb t ht
    have h2h : halfWidth w + halfWidth w = w := by
      unfold halfWidth
      omega
    have hslice : pySlice trace (pyInt (t*10) - (halfWidth w : ℤ))
          (pyInt (t*10) + (halfWidth w : ℤ))
        = (trace.drop (pyInt (t*10) - (halfWidth w : ℤ)).toNat).take
            ((pyInt (t*10) + (halfWidth w : ℤ)) - (pyInt (t*10) - (halfWidth w : ℤ))).toNat :=
      pySlice_of_bounds _ _ _ h1 (by omega) h2
    have hdiff : ((pyInt (t*10) + (halfWidth w : ℤ))
        - (pyInt (t*10) - (halfWidth w : ℤ))).toNat = w := by
      omega
    have hlen : ((trace.drop (pyInt (t*10) - (halfWidth w : ℤ)).toNat).take w).length = w := by
      rw [List.length_take, List.length_drop]
      apply min_eq_left
      omega
    simp only [hslice, hdiff, hlen, if_true, Bool.false_eq_true, if_false]
  simp only [extractSpikes, heph, hst, hcols, Except.map]

/-- C3 witness: `extractSpikes_even_width_windows` on the ramp trace
`[0..9]` with one spike at 0.5 ms and width 2. -/
theorem extractSpikes_even_width_windows_witness :
    (extractSpikes ⟨.single [0,1,2,3,4,5,6,7,8,9] 10000, some (.single [1/2]),
        none, none, none⟩ 2 false).map (fun out => out.extractedSpikes)
      = .ok (some (.one ⟨2, ([1/2] : List ℚ).map (fun t =>
          ((([0,1,2,3,4,5,6,7,8,9] : List ℚ).drop
              (pyInt (t*10) - (halfWidth 2 : ℤ)).toNat).take 2).map
            (fun (q : ℚ) => (q : ℝ)))⟩)) :=
  extractSpikes_even_width_windows
    ⟨.single [0,1,2,3,4,5,6,7,8,9] 10000, some (.single [1/2]), none, none, none⟩
    [0,1,2,3,4,5,6,7,8,9] [1/2] 10000 2 rfl rfl rfl
    (by
      intro t ht
      simp only [List.mem_singleton] at ht
      subst ht
      norm_num [pyInt, halfWidth])

/-- C4 counterexample: the claim describes a symmetric kernel support
running from `-3*sigma` to `+3*sigma`.  The code's
`np.arange(-3*sigma, 3*sigma, binSize)` excludes the upper endpoint: for
`sigma = binSize = 1` the support contains `-3` but not `+3`, so it is not
symmetric and does not run to `+3*sigma`. -/
theorem kernelSupport_not_symmetric :
    ((-3 : ℚ)) ∈ kernelSupport 1 1 ∧ ((3 : ℚ)) ∉ kernelSupport 1 1 := by
  have h : kernelSupport 1 1 = [-3, -2, -1, 0, 1, 2] := by
    norm_num [kernelSupport, arange, List.range_succ, Int.toNat]
  rw [h]
  constructor
  · simp
  · norm_num [List.mem_cons]

/-- C4 amended: for `0 < binSize ≤ sigma` the kernel support is the
arithmetic grid `-3*sigma + k*binSize` for `k < ceil(6*sigma/binSize)`, so
it starts at `-3*sigma` inclusive and stays strictly below `+3*sigma`
(upper endpoint excluded), and every kernel entry is the normal density
with mean 0 and standard deviation `sigma` at the corresponding support
point, scaled by `binSize` (the discrete-sampling correction intended to
make the kernel sum approximately 1). -/
theorem gaussKernel_support_spec (sigma binSize : ℚ) (hb : 0 < binSize) (hs : binSize ≤ sigma) :
    (kernelSupport sigma binSize).length = (⌈6 * sigma / binSize⌉).toNat ∧
    (∀ x ∈ kernelSupport sigma binSize, -(3 * sigma) ≤ x ∧ x < 3 * sigma) ∧
    (∀ x : ℚ, x ∈ kernelSupport sigma binSize ↔
      ∃ k : ℕ, k < (⌈6 * sigma / binSize⌉).toNat ∧ x = -(3 * sigma) + (k : ℚ) * binSize) ∧
    (gaussKernel sigma binSize).length = (kernelSupport sigma binSize).length ∧
    (∀ k : ℕ, k < (kernelSupport sigma binSize).length →
      (gaussKernel sigma binSize).getD k 0
        = gaussPdf sigma ((kernelSupport sigma binSize).getD k 0) * ((binSize : ℚ) : ℝ)) := by
  have harg : (3 * sigma - -3 * sigma) / binSize = 6 * sigma / binSize := by ring_nf
  have hlen : (kernelSupport sigma binSize).length = (⌈6 * sigma / binSize⌉).toNat := by
    rw [kernelSupport, arange_length, harg]
  have hmem : ∀ x : ℚ, x ∈ kernelSupport sigma binSize ↔
      ∃ k : ℕ, k < (⌈6 * sigma / binSize⌉).toNat ∧ x = -(3 * sigma) + (k : ℚ) * binSize := by
    intro x
    simp only [kernelSupport, arange, List.mem_map, List.mem_range, harg]
    constructor
    · rintro ⟨k, hk, rfl⟩
      exact ⟨k, hk, by ring⟩
    · rintro ⟨k, hk, rfl⟩
      exact ⟨k, hk, by ring⟩
  refine ⟨hlen, ?_, hmem, by simp [gaussKernel, List.length_map], ?_⟩
  · intro x hx
    obtain ⟨k, hk, rfl⟩ := (hmem x).mp hx
    constructor
    · have hkb : (0:ℚ) ≤ (k : ℚ) * binSize := mul_nonneg (by positivity) hb.le
      linarith
    · have hkc : ((k : ℤ) : ℚ) < 6 * sigma / binSize := by
        apply Int.lt_ceil.mp
        omega
      have hlt : (k : ℚ) * binSize < 6 * sigma := by
        rw [← lt_div_iff hb]
        exact_mod_cast hkc
      linarith
  · intro k hk
    rw [gaussKernel, getD_map_cast _ _ _ hk]

/-- C4 witness: `gaussKernel_support_spec` at `sigma = binSize = 1`. -/
theorem gaussKernel_support_spec_witness :
    (kernelSupport 1 1).length = (⌈(6 : ℚ) * 1 / 1⌉).toNat ∧
    (∀ x ∈ kernelSupport 1 1, -((3:ℚ) * 1) ≤ x ∧ x < 3 * 1) ∧
    (∀ x : ℚ, x ∈ kernelSupport 1 1 ↔
      ∃ k : ℕ, k < (⌈(6 : ℚ) * 1 / 1⌉).toNat ∧ x = -((3:ℚ) * 1) + (k : ℚ) * 1) ∧
    (gaussKernel 1 1).length = (kernelSupport 1 1).length ∧
    (∀ k : ℕ, k < (kernelSupport 1 1).length →
      (gaussKernel 1 1).getD k 0
        = gaussPdf 1 ((kernelSupport 1 1).getD k 0) * (((1:ℚ) : ℚ) : ℝ)) :=
  gaussKernel_support_spec 1 1 (by norm_num) (by norm_num)

end Dattacode
